import Mathlib

set_option maxRecDepth 100000

/-!
Verification of the weasyprint-docker server (`server.py`).

The development shallowly embeds the request pipeline of `server.py`:
POSIX path manipulation (`os.path.join`, `os.path.normpath`, `os.path.abspath`
as CPython's `posixpath` defines them, lexically, over characters), the
`URLFetcher` resource-access guard, multipart ingestion into a Python
insertion-ordered dict, stylesheet selection, attachment collection and the
`render_pdf` handler's branch structure (the `with TemporaryDirectory()` block,
the 400 / 500 / 200 exits).
-/

namespace WeasyServer

/-! ## Character-level string helpers (kernel-reducible) -/

/-- Split a character list on the separator, keeping empty
segments, matching Python's `str.split(sep)` (so `split "" = [""]`). -/
def splitSlash : List Char → List (List Char)
  | [] => [[]]
  | c :: rest =>
    let r := splitSlash rest
    if c = '/' then [] :: r
    else
      match r with
      | h :: t => (c :: h) :: t
      | [] => [[c]]

/-- Whether the first list is a leading segment of the second. -/
def leadsCh : List Char → List Char → Bool
  | [], _ => true
  | _ :: _, [] => false
  | a :: as, b :: bs => a = b && leadsCh as bs

/-- Whether `needle` occurs as a contiguous substring of the haystack. -/
def containsSubCh (needle : List Char) : List Char → Bool
  | [] => leadsCh needle []
  | c :: rest => leadsCh needle (c :: rest) || containsSubCh needle rest

/-- `strStartsWith pre s` : `s` starts with `pre` (Python `s.startswith(pre)`). -/
def strStartsWith (pre s : String) : Bool := leadsCh pre.data s.data

/-- `containsSub needle s` : `needle` occurs inside `s` (Python `needle in s`). -/
def containsSub (needle s : String) : Bool := containsSubCh needle.data s.data

/-! ## CPython `posixpath` primitives -/

/-- `posixpath.join(a, b)` for two operands: an absolute second operand
discards the first, otherwise a `/` separator is inserted unless the first
operand is empty or already ends in `/`. -/
def joinChars (a b : List Char) : List Char :=
  if b.head? = some '/' then b
  else if a = [] ∨ a.getLast? = some '/' then a ++ b
  else a ++ '/' :: b

/-- The number of leading slashes `posixpath.normpath` preserves: POSIX keeps
exactly two leading slashes as meaningful, one and three-or-more collapse
to one. -/
def initialSlashCount (cs : List Char) : Nat :=
  match cs with
  | '/' :: '/' :: '/' :: _ => 1
  | '/' :: '/' :: _ => 2
  | '/' :: _ => 1
  | _ => 0

/-- The component loop of `posixpath.normpath`: drop empty and `.` components;
append a component unless it is `..` cancelling a previous real component;
`..` at the root of an absolute path is dropped, leading `..` of a relative
path are kept. The accumulator is in reverse order. -/
def normComps (initSl : Nat) : List (List Char) → List (List Char) → List (List Char)
  | acc, [] => acc.reverse
  | acc, c :: rest =>
    if c = [] ∨ c = ['.'] then normComps initSl acc rest
    else if c ≠ ['.', '.'] ∨ (initSl = 0 ∧ acc = []) ∨ acc.head? = some ['.', '.'] then
      normComps initSl (c :: acc) rest
    else
      normComps initSl acc.tail rest

/-- Rejoin normalized components with `/`. -/
def joinComps : List (List Char) → List Char
  | [] => []
  | [c] => c
  | c :: rest => c ++ '/' :: joinComps rest

/-- `posixpath.normpath` on characters. -/
def normpathChars (cs : List Char) : List Char :=
  if cs = [] then ['.']
  else
    let isl := initialSlashCount cs
    let res := List.replicate isl '/' ++ joinComps (normComps isl [] (splitSlash cs))
    if res = [] then ['.'] else res

/-- `posixpath.abspath`: join a relative path onto the working directory,
then normalize; `abspath` resolves `.` and `..` lexically and does not
consult the filesystem (in particular it does not resolve symlinks). -/
def abspathChars (cwd cs : List Char) : List Char :=
  if cs.head? = some '/' then normpathChars cs
  else normpathChars (joinChars cwd cs)

/-- `os.path.join` on strings. -/
def pathJoin (a b : String) : String := String.mk (joinChars a.data b.data)

/-- `os.path.normpath` on strings. -/
def normpath (s : String) : String := String.mk (normpathChars s.data)

/-- `os.path.abspath` on strings, with the process working directory explicit. -/
def abspath (cwd s : String) : String := String.mk (abspathChars cwd.data s.data)

/-! ## The `URLFetcher` resource-access guard (`server.py` lines 32-49) -/

/-- Outcome of one `URLFetcher.__call__`: either the call delegates to
weasyprint's `default_url_fetcher`, or it raises `ValueError(msg)`. -/
inductive FetchResult
  | delegated
  | denied (msg : String)
deriving DecidableEq

/-- `URLFetcher.__call__(url)` after `urlparse`, taking the parsed scheme and
path: `data` URLs delegate; empty-scheme or `file` URLs with a non-empty path
delegate exactly when `os.path.abspath(path)` is a member of the valid-path
collection, and raise `ValueError` otherwise; everything else raises
`ValueError`. -/
def urlFetcherCall (validPaths : List String) (cwd scheme path : String) : FetchResult :=
  if scheme = "data" then .delegated
  else if (scheme = "" ∨ scheme = "file") ∧ path ≠ "" then
    if abspath cwd path ∈ validPaths then .delegated
    else .denied "Only known path allowed"
  else .denied "External resources are not allowed"

/-! ## Multipart ingestion (`server.py` lines 52-75, 114-128) -/

/-- One multipart body part, as the handler observes it: its field name
(`part.name`) and its declared filename (`part.filename`). -/
structure Part where
  name : String
  filename : String
deriving DecidableEq

/-- A Python 3.7+ dict of strings: an insertion-ordered association list in
which writing an existing key updates the value in place (keeping the key's
original position) and writing a new key appends it at the end. -/
def dictInsert (d : List (String × String)) (k v : String) : List (String × String) :=
  match d with
  | [] => [(k, v)]
  | (k', v') :: rest => if k' = k then (k, v) :: rest else (k', v') :: dictInsert rest k v

/-- Python dict lookup (`d[k]` / `k in d`). -/
def lookupD : List (String × String) → String → Option String
  | [], _ => none
  | (k, v) :: rest, k' => if k = k' then some v else lookupD rest k'

/-- The field-name filter on `server.py` lines 68-72: a part is stored only if
its name is exactly `html` or `css`, or starts with `attachment.` or `asset.`. -/
def recognized (name : String) : Bool :=
  name = "html" || name = "css" ||
    strStartsWith "attachment." name || strStartsWith "asset." name

/-- `save_part_to_file(part, directory)` returns
`os.path.join(directory, part.filename)`, the path the part's bytes are
written to. -/
def save_part_to_file (directory : String) (p : Part) : String :=
  pathJoin directory p.filename

/-- One iteration of the ingestion loop: a recognized part is saved and its
path stored under its field name; an unrecognized part leaves `form_data`
unchanged. -/
def ingestStep (dir : String) (d : List (String × String)) (p : Part) : List (String × String) :=
  if recognized p.name then dictInsert d p.name (save_part_to_file dir p) else d

/-- The whole ingestion loop: `form_data` after all parts are processed. -/
def ingest (dir : String) (parts : List Part) : List (String × String) :=
  parts.foldl (ingestStep dir) []

/-! ## Stylesheet selection and attachments (`server.py` lines 84-102) -/

/-- The literal fallback stylesheet of `server.py` lines 88-97 (`\x7b` and
`\x7d` denote the braces of the CSS source). -/
def defaultCss : String :=
  "\n                @font-face \x7b\n                    font-family: \"Zeitung Micro Pro\";\n                    src: url(file:///home/user/project/Zeitung-Micro-Pro.ttf) format(\"truetype\");\n                \x7d\n                @font-face \x7b\n                    font-family: \"Tisa Pro\";\n                    src: url(file:///home/user/project/Tisa-Pro.ttf) format(\"truetype\");\n                \x7d\n            "

/-- Which stylesheet the handler builds: the uploaded `css` file (read through
a fresh `URLFetcher`), or the built-in `CSS(string=...)` fallback. -/
inductive CssChoice
  | fromPart (path : String)
  | builtin (css : String)
deriving DecidableEq

/-- Lines 84-97: use the `css` part if one was ingested, the built-in
stylesheet otherwise. -/
def cssChoice (d : List (String × String)) : CssChoice :=
  match lookupD d "css" with
  | some p => .fromPart p
  | none => .builtin defaultCss

/-- Whether a field name selects the part as a document attachment
(`name.startswith('attachment.')`, line 101). -/
def attachmentName (k : String) : Bool := strStartsWith "attachment." k

/-- Lines 99-102: the file paths of the `form_data` entries whose field name
starts with `attachment.`, in dict order. -/
def attachments (d : List (String × String)) : List String :=
  (d.filter fun kv => attachmentName kv.1).map Prod.snd

/-! ## The `render_pdf` handler (`server.py` lines 52-112) -/

/-- An HTTP response as the handler produces it: a status and the text body
(for the streamed 200 the body stands for the streamed artifact file). -/
structure Response where
  status : Nat
  text : String
deriving DecidableEq

/-- Outcome of the opaque `html.write_pdf` engine call. -/
inductive EngineResult
  | ok
  | failure (cause : String)
deriving DecidableEq

/-- What the multipart reader yields over the whole request: either the list
of parts in the order received, or an exception raised while reading the
malformed body. -/
inductive Ingestion
  | parts (ps : List Part)
  | malformed (err : String)

/-- Everything observable about one handler run: the response (if any), an
exception propagated out of the handler (if any), whether the engine was
invoked, which stylesheet was built, the attachment list handed to the
engine, whether the workspace directory was removed, and the log lines. -/
structure RenderTrace where
  response : Option Response
  raised : Option String
  engineInvoked : Bool
  stylesheet : Option CssChoice
  attachmentsPassed : List String
  workspaceDeleted : Bool
  logged : List String

/-- The body of the `with tempfile.TemporaryDirectory()` block, lines 60-112.
While the body runs the workspace exists (`workspaceDeleted := false` on
every branch); an exception from the reader propagates (`raised`), a missing
`html` part returns 400, an engine failure logs the cause and returns the
fixed 500 text, and success streams `output.pdf` with 200. -/
def renderBody (dir : String) (ing : Ingestion) (engine : EngineResult) : RenderTrace :=
  match ing with
  | .malformed e => ⟨none, some e, false, none, [], false, []⟩
  | .parts ps =>
    let fd := ingest dir ps
    match lookupD fd "html" with
    | none =>
      ⟨some ⟨400, "No html file provided."⟩, none, false, none, [], false,
        ["Bad request. No html file provided."]⟩
    | some _ =>
      let css := cssChoice fd
      let atts := attachments fd
      match engine with
      | .failure cause =>
        ⟨some ⟨500, "PDF generation failed."⟩, none, true, some css, atts, false,
          ["PDF generation failed", cause]⟩
      | .ok =>
        ⟨some ⟨200, pathJoin dir "output.pdf"⟩, none, true, some css, atts, false, []⟩

/-- `with tempfile.TemporaryDirectory() as temp_dir:` — whatever the body
does (return or raise), `__exit__` removes the directory recursively. -/
def withTempDirectory (dir : String) (body : String → RenderTrace) : RenderTrace :=
  let t := body dir
  ⟨t.response, t.raised, t.engineInvoked, t.stylesheet, t.attachmentsPassed, true, t.logged⟩

/-- The `render_pdf` handler over a fresh workspace directory. -/
def render_pdf (dir : String) (ing : Ingestion) (engine : EngineResult) : RenderTrace :=
  withTempDirectory dir fun d => renderBody d ing engine

/-! ## Dictionary lemmas -/

theorem lookupD_dictInsert (d : List (String × String)) (k v k' : String) :
    lookupD (dictInsert d k v) k' = if k = k' then some v else lookupD d k' := by
  induction d with
  | nil => simp [dictInsert, lookupD]
  | cons h t ih =>
    obtain ⟨hk, hv⟩ := h
    by_cases e : hk = k
    · subst e
      by_cases e2 : hk = k' <;> simp [dictInsert, lookupD, e2]
    · by_cases e3 : k = k'
      · subst e3
        simp [dictInsert, lookupD, e, ih]
      · by_cases e2 : hk = k'
        · subst e2
          simp [dictInsert, lookupD, Ne.symm e3, e3]
        · simp [dictInsert, lookupD, e, e2, e3, ih]

theorem lookupD_foldl_of_absent (dir k : String) :
    ∀ (ps : List Part) (d : List (String × String)),
      (∀ p ∈ ps, p.name ≠ k) →
      lookupD (ps.foldl (ingestStep dir) d) k = lookupD d k := by
  intro ps
  induction ps with
  | nil => intro d _; rfl
  | cons p t ih =>
    intro d h
    have hp : p.name ≠ k := h p (List.mem_cons_self p t)
    have ht : ∀ q ∈ t, q.name ≠ k := fun q hq => h q (List.mem_cons_of_mem _ hq)
    simp only [List.foldl_cons]
    rw [ih _ ht]
    unfold ingestStep
    by_cases hr : recognized p.name = true
    · simp [hr, lookupD_dictInsert, hp]
    · simp [hr]

theorem lookupD_foldl_isSome (dir k : String) :
    ∀ (ps : List Part) (d : List (String × String)),
      ((lookupD d k).isSome ∨ ∃ p ∈ ps, p.name = k ∧ recognized p.name = true) →
      (lookupD (ps.foldl (ingestStep dir) d) k).isSome := by
  intro ps
  induction ps with
  | nil =>
    intro d h
    rcases h with h | ⟨p, hp, -⟩
    · exact h
    · cases hp
  | cons p t ih =>
    intro d h
    simp only [List.foldl_cons]
    apply ih
    rcases h with h | ⟨q, hq, hqk, hqr⟩
    · left
      unfold ingestStep
      by_cases hr : recognized p.name = true
      · simp only [hr, if_pos, lookupD_dictInsert]
        by_cases e : p.name = k <;> simp [e, h]
      · simpa [hr] using h
    · rcases List.mem_cons.mp hq with rfl | hqt
      · left
        unfold ingestStep
        rw [hqr, if_pos rfl, lookupD_dictInsert]
        simp [hqk]
      · right
        exact ⟨q, hqt, hqk, hqr⟩

theorem lookupD_ingest_none (dir k : String) (ps : List Part)
    (h : ∀ p ∈ ps, p.name ≠ k) :
    lookupD (ingest dir ps) k = none := by
  unfold ingest
  rw [lookupD_foldl_of_absent dir k ps [] h]
  rfl

theorem lookupD_ingest_isSome (dir k : String) (ps : List Part)
    (h : ∃ p ∈ ps, p.name = k ∧ recognized p.name = true) :
    (lookupD (ingest dir ps) k).isSome := by
  exact lookupD_foldl_isSome dir k ps [] (Or.inr h)

/-! ## Attachment-list lemmas -/

theorem dictInsert_of_absent (k v : String) :
    ∀ d : List (String × String), lookupD d k = none → dictInsert d k v = d ++ [(k, v)] := by
  intro d
  induction d with
  | nil => intro _; rfl
  | cons h t ih =>
    obtain ⟨hk, hv⟩ := h
    intro hl
    by_cases e : hk = k
    · simp [lookupD, e] at hl
    · simp only [lookupD, if_neg e] at hl
      simp [dictInsert, e, ih hl]

theorem attachments_append (d e : List (String × String)) :
    attachments (d ++ e) = attachments d ++ attachments e := by
  simp [attachments, List.filter_append]

theorem attachments_cons (k v : String) (d : List (String × String)) :
    attachments ((k, v) :: d) =
      if attachmentName k = true then v :: attachments d else attachments d := by
  by_cases e : attachmentName k = true <;> simp [attachments, List.filter_cons, e]

theorem attachments_dictInsert_notAtt (k v : String) (hk : attachmentName k = false) :
    ∀ d : List (String × String), attachments (dictInsert d k v) = attachments d := by
  intro d
  induction d with
  | nil => simp [dictInsert, attachments, hk]
  | cons h t ih =>
    obtain ⟨hk', hv'⟩ := h
    by_cases e : hk' = k
    · subst e
      simp [dictInsert, attachments_cons, hk]
    · have expand : dictInsert ((hk', hv') :: t) k v = (hk', hv') :: dictInsert t k v := by
        simp [dictInsert, e]
      rw [expand, attachments_cons, attachments_cons, ih]

theorem attachmentName_recognized (k : String) (h : attachmentName k = true) :
    recognized k = true := by
  unfold recognized
  unfold attachmentName at h
  simp [h]

theorem attachments_foldl (dir : String) :
    ∀ (ps : List Part) (d : List (String × String)),
      ((ps.filter fun p => attachmentName p.name).map Part.name).Nodup →
      (∀ p ∈ ps, attachmentName p.name = true → lookupD d p.name = none) →
      attachments (ps.foldl (ingestStep dir) d) =
        attachments d ++ (ps.filter fun p => attachmentName p.name).map (save_part_to_file dir) := by
  intro ps
  induction ps with
  | nil => intro d _ _; simp
  | cons p t ih =>
    intro d hnd habs
    simp only [List.foldl_cons]
    by_cases ha : attachmentName p.name = true
    · have hrec : recognized p.name = true := attachmentName_recognized _ ha
      have hnone : lookupD d p.name = none := habs p (List.mem_cons_self p t) ha
      have hstep : ingestStep dir d p = d ++ [(p.name, save_part_to_file dir p)] := by
        unfold ingestStep
        rw [if_pos hrec, dictInsert_of_absent _ _ _ hnone]
      have hfilter :
          (p :: t).filter (fun q => attachmentName q.name) =
            p :: t.filter fun q => attachmentName q.name := by
        simp [List.filter_cons, ha]
      rw [hfilter] at hnd
      simp only [List.map_cons, List.nodup_cons] at hnd
      obtain ⟨hpt, hndt⟩ := hnd
      have habs' : ∀ q ∈ t, attachmentName q.name = true →
          lookupD (d ++ [(p.name, save_part_to_file dir p)]) q.name = none := by
        intro q hq hqa
        have hqp : q.name ≠ p.name := by
          intro hcontr
          exact hpt (hcontr ▸ List.mem_map_of_mem Part.name (List.mem_filter_of_mem hq hqa))
        rw [← dictInsert_of_absent _ _ _ hnone, lookupD_dictInsert]
        rw [if_neg fun hcontr => hqp hcontr.symm]
        exact habs q (List.mem_cons_of_mem _ hq) hqa
      rw [hstep, ih _ hndt habs', attachments_append, hfilter]
      simp [attachments, ha, List.append_assoc]
    · have hfilter :
          (p :: t).filter (fun q => attachmentName q.name) =
            t.filter fun q => attachmentName q.name := by
        simp [List.filter_cons, ha]
      rw [hfilter] at hnd
      by_cases hrec : recognized p.name = true
      · have hstep : ingestStep dir d p = dictInsert d p.name (save_part_to_file dir p) := by
          unfold ingestStep
          rw [if_pos hrec]
        have habs' : ∀ q ∈ t, attachmentName q.name = true →
            lookupD (dictInsert d p.name (save_part_to_file dir p)) q.name = none := by
          intro q hq hqa
          have hqp : p.name ≠ q.name := by
            intro hcontr
            rw [hcontr] at ha
            exact ha hqa
          rw [lookupD_dictInsert, if_neg hqp]
          exact habs q (List.mem_cons_of_mem _ hq) hqa
        rw [hstep, ih _ hnd habs',
          attachments_dictInsert_notAtt _ _ (by simpa using ha), hfilter]
      · have hstep : ingestStep dir d p = d := by
          unfold ingestStep
          rw [if_neg hrec]
        have habs' : ∀ q ∈ t, attachmentName q.name = true → lookupD d q.name = none :=
          fun q hq hqa => habs q (List.mem_cons_of_mem _ hq) hqa
        rw [hstep, ih _ hnd habs', hfilter]

theorem attachments_ingest (dir : String) (ps : List Part)
    (hnd : ((ps.filter fun p => attachmentName p.name).map Part.name).Nodup) :
    attachments (ingest dir ps) =
      (ps.filter fun p => attachmentName p.name).map (save_part_to_file dir) := by
  unfold ingest
  rw [attachments_foldl dir ps [] hnd fun p _ _ => rfl]
  rfl

/-! ## Claim theorems -/

/-- C1: for every URL whose parsed scheme is empty or `file` and whose path
component is non-empty, the guard resolves the path with `os.path.abspath`
(lexical normalization of `.` and `..` against the working directory) and
delegates the fetch if and only if the resolved path is a member of the
request's valid-path collection; when it is not a member the call raises the
access-denied `ValueError('Only known path allowed')`. The comparison is on
the normalized absolute path, never on the raw URL string. -/
theorem guard_local_path_membership (v : List String) (cwd s p : String)
    (hs : s = "" ∨ s = "file") (hp : p ≠ "") :
    (urlFetcherCall v cwd s p = .delegated ↔ abspath cwd p ∈ v) ∧
    (abspath cwd p ∉ v →
      urlFetcherCall v cwd s p = .denied "Only known path allowed") := by
  have hnd : s ≠ "data" := by rcases hs with h | h <;> simp [h]
  unfold urlFetcherCall
  rw [if_neg hnd, if_pos ⟨hs, hp⟩]
  by_cases hm : abspath cwd p ∈ v <;> simp [hm]

/-- Witness for C1 at a concrete input: a `file:` URL whose path reaches an
ingested file through a `..` construction is delegated, because `abspath`
normalizes it onto the valid-path entry. -/
theorem guard_local_path_membership_witness :
    urlFetcherCall ["/tmp/ws/a.png"] "/srv" "file" "/tmp/ws/../ws/a.png" = .delegated :=
  (guard_local_path_membership ["/tmp/ws/a.png"] "/srv" "file" "/tmp/ws/../ws/a.png"
    (Or.inr rfl) (by decide)).1.mpr (by decide)

/-- C2: the guard's scheme dispatch: a `data` URL always delegates to the
default fetcher, for every valid-path collection and every path (no
filesystem check); a URL with any scheme other than `data`, the empty scheme
or `file` always raises the access-denied
`ValueError('External resources are not allowed')`, for every valid-path
collection and every path. -/
theorem guard_scheme_dispatch (v : List String) (cwd p s : String)
    (hs : s ≠ "data" ∧ s ≠ "" ∧ s ≠ "file") :
    urlFetcherCall v cwd "data" p = .delegated ∧
    urlFetcherCall v cwd s p = .denied "External resources are not allowed" := by
  obtain ⟨h1, h2, h3⟩ := hs
  constructor
  · simp [urlFetcherCall]
  · unfold urlFetcherCall
    rw [if_neg h1, if_neg]
    rintro ⟨h | h, -⟩
    · exact h2 h
    · exact h3 h

/-- Witness for C2 at concrete inputs: a `data:` URL delegates and an
`http:` URL is denied even though its path is in the valid-path collection. -/
theorem guard_scheme_dispatch_witness :
    urlFetcherCall ["/tmp/ws/a.png"] "/srv" "data" "text/plain;base64,aGk=" = .delegated ∧
    urlFetcherCall ["/tmp/ws/a.png"] "/srv" "http" "/tmp/ws/a.png" =
      .denied "External resources are not allowed" :=
  guard_scheme_dispatch ["/tmp/ws/a.png"] "/srv" "/tmp/ws/a.png" "http" (by decide)

/-- C3: on every exit path of the handler — a propagated ingestion exception,
the 400 validation failure, an engine failure, or success — the
`with TemporaryDirectory()` block has removed the workspace directory by the
time the handler's outcome is delivered. -/
theorem workspace_always_deleted (dir : String) (ing : Ingestion) (engine : EngineResult) :
    (render_pdf dir ing engine).workspaceDeleted = true := rfl

/-- C4: if no part of the request has field name `html`, the handler responds
400 with the plain-text body and never invokes the rendering engine. -/
theorem no_html_part_gives_400 (dir : String) (ps : List Part) (engine : EngineResult)
    (h : ∀ p ∈ ps, p.name ≠ "html") :
    (render_pdf dir (.parts ps) engine).response = some ⟨400, "No html file provided."⟩ ∧
    (render_pdf dir (.parts ps) engine).engineInvoked = false := by
  have hl : lookupD (ingest dir ps) "html" = none := lookupD_ingest_none dir "html" ps h
  simp [render_pdf, withTempDirectory, renderBody, hl]

/-- Witness for C4 at a concrete input: a request carrying only a `css` part
is answered 400 and the engine stays uninvoked. -/
theorem no_html_part_gives_400_witness :
    (render_pdf "/ws" (.parts [⟨"css", "style.css"⟩]) .ok).response =
      some ⟨400, "No html file provided."⟩ ∧
    (render_pdf "/ws" (.parts [⟨"css", "style.css"⟩]) .ok).engineInvoked = false :=
  no_html_part_gives_400 "/ws" [⟨"css", "style.css"⟩] .ok (by decide)

/-- C5 counterexample: two parts sharing the field name `attachment.x` are
collapsed by the dict, so the engine receives one attachment (the last
part's path) instead of the two received parts' paths in order; the claim's
promised list differs from the computed one. -/
theorem attachments_duplicate_name_counterexample :
    attachments (ingest "/ws" [⟨"attachment.x", "a.bin"⟩, ⟨"attachment.x", "b.bin"⟩]) =
      ["/ws/b.bin"] ∧
    (([⟨"attachment.x", "a.bin"⟩, ⟨"attachment.x", "b.bin"⟩] : List Part).filter
        fun p => attachmentName p.name).map (save_part_to_file "/ws") =
      ["/ws/a.bin", "/ws/b.bin"] ∧
    (["/ws/b.bin"] : List String) ≠ ["/ws/a.bin", "/ws/b.bin"] := by
  refine ⟨by decide, by decide, by decide⟩

/-- C5 (amended): for every request whose `attachment.*` field names are
pairwise distinct and which carries an `html` part, the attachment list the
handler passes to the engine is exactly the file paths of the parts whose
field names start with `attachment.`, in the order those parts were
received; `asset.*` parts are never in the list. (Parts repeating an
`attachment.*` field name collapse to a single dict entry, holding the last
path at the first occurrence position.) -/
theorem attachments_order_preserved (dir : String) (ps : List Part) (engine : EngineResult)
    (hnd : ((ps.filter fun p => attachmentName p.name).map Part.name).Nodup)
    (hh : ∃ p ∈ ps, p.name = "html") :
    (render_pdf dir (.parts ps) engine).attachmentsPassed =
      (ps.filter fun p => attachmentName p.name).map (save_part_to_file dir) := by
  obtain ⟨q, hq, hqn⟩ := hh
  have hsome : (lookupD (ingest dir ps) "html").isSome :=
    lookupD_ingest_isSome dir "html" ps ⟨q, hq, hqn, by rw [hqn]; decide⟩
  obtain ⟨path, hp⟩ := Option.isSome_iff_exists.mp hsome
  have ha := attachments_ingest dir ps hnd
  cases engine <;> simp [render_pdf, withTempDirectory, renderBody, hp, ha]

/-- Witness for C5 (amended) at a concrete input: attachments `A.bin` then
`B.bin`, with an interleaved asset, come out in received order and without
the asset. -/
theorem attachments_order_preserved_witness :
    (render_pdf "/ws"
        (.parts [⟨"html", "index.html"⟩, ⟨"attachment.a", "A.bin"⟩,
          ⟨"asset.i", "i.png"⟩, ⟨"attachment.b", "B.bin"⟩]) .ok).attachmentsPassed =
      ["/ws/A.bin", "/ws/B.bin"] := by
  rw [attachments_order_preserved "/ws"
    [⟨"html", "index.html"⟩, ⟨"attachment.a", "A.bin"⟩,
      ⟨"asset.i", "i.png"⟩, ⟨"attachment.b", "B.bin"⟩] .ok (by decide)
    ⟨⟨"html", "index.html"⟩, by decide, rfl⟩]
  decide

/-- C6 counterexample: a request with an `html` part and no `css` part does
use the built-in fallback stylesheet, but that stylesheet declares
`@font-face` sources at `file:///home/user/project/...` URLs — host
filesystem resources outside the request workspace, fetched by the engine's
default fetcher — so the built-in stylesheet does depend on externally
fetched resources, refuting the claim's second conjunct. -/
theorem default_css_external_font_counterexample :
    (render_pdf "/ws" (.parts [⟨"html", "index.html"⟩]) .ok).stylesheet =
      some (.builtin defaultCss) ∧
    containsSub "url(file:///home/user/project/" defaultCss = true := by
  refine ⟨by decide, by decide⟩

/-- C6 (amended): for every request containing an `html` part but no `css`
part, rendering proceeds with the built-in synthesized fallback stylesheet,
and that stylesheet references two externally fetched font resources, the
`file:///home/user/project/Zeitung-Micro-Pro.ttf` and
`file:///home/user/project/Tisa-Pro.ttf` host paths (loaded through the
engine's default fetcher, not through the guard). -/
theorem default_stylesheet_when_no_css (dir : String) (ps : List Part) (engine : EngineResult)
    (hh : ∃ p ∈ ps, p.name = "html") (hc : ∀ p ∈ ps, p.name ≠ "css") :
    (render_pdf dir (.parts ps) engine).stylesheet = some (.builtin defaultCss) ∧
    containsSub "url(file:///home/user/project/Zeitung-Micro-Pro.ttf" defaultCss = true ∧
    containsSub "url(file:///home/user/project/Tisa-Pro.ttf" defaultCss = true := by
  obtain ⟨q, hq, hqn⟩ := hh
  have hsome : (lookupD (ingest dir ps) "html").isSome :=
    lookupD_ingest_isSome dir "html" ps ⟨q, hq, hqn, by rw [hqn]; decide⟩
  obtain ⟨path, hp⟩ := Option.isSome_iff_exists.mp hsome
  have hcss : lookupD (ingest dir ps) "css" = none := lookupD_ingest_none dir "css" ps hc
  refine ⟨?_, by decide, by decide⟩
  cases engine <;> simp [render_pdf, withTempDirectory, renderBody, hp, cssChoice, hcss]

/-- Witness for C6 (amended) at a concrete input: an `html`-only request gets
the built-in stylesheet, which carries both host font URLs. -/
theorem default_stylesheet_when_no_css_witness :
    (render_pdf "/ws" (.parts [⟨"html", "index.html"⟩]) .ok).stylesheet =
      some (.builtin defaultCss) ∧
    containsSub "url(file:///home/user/project/Zeitung-Micro-Pro.ttf" defaultCss = true ∧
    containsSub "url(file:///home/user/project/Tisa-Pro.ttf" defaultCss = true :=
  default_stylesheet_when_no_css "/ws" [⟨"html", "index.html"⟩] .ok
    ⟨⟨"html", "index.html"⟩, by decide, rfl⟩ (by decide)

/-- C7: for every request holding an `html` part, an engine exception — any
cause, including guard denials propagated through the engine — yields the
500 response whose body is the fixed generic string, the same for every
cause (the cause appears only in the server-side log); engine success yields
the streamed 200 response with the generated `output.pdf`. -/
theorem engine_failure_opaque_500 (dir : String) (ps : List Part) (cause : String)
    (hh : ∃ p ∈ ps, p.name = "html") :
    (render_pdf dir (.parts ps) (.failure cause)).response =
      some ⟨500, "PDF generation failed."⟩ ∧
    cause ∈ (render_pdf dir (.parts ps) (.failure cause)).logged ∧
    (render_pdf dir (.parts ps) .ok).response = some ⟨200, pathJoin dir "output.pdf"⟩ := by
  obtain ⟨q, hq, hqn⟩ := hh
  have hsome : (lookupD (ingest dir ps) "html").isSome :=
    lookupD_ingest_isSome dir "html" ps ⟨q, hq, hqn, by rw [hqn]; decide⟩
  obtain ⟨path, hp⟩ := Option.isSome_iff_exists.mp hsome
  simp [render_pdf, withTempDirectory, renderBody, hp]

/-- Witness for C7 at a concrete input: a failing engine call with an
internal traceback in its cause still produces the fixed 500 body, the
cause is logged, and the successful run streams 200. -/
theorem engine_failure_opaque_500_witness :
    (render_pdf "/ws" (.parts [⟨"html", "index.html"⟩])
        (.failure "ValueError: Only known path allowed")).response =
      some ⟨500, "PDF generation failed."⟩ ∧
    "ValueError: Only known path allowed" ∈
      (render_pdf "/ws" (.parts [⟨"html", "index.html"⟩])
        (.failure "ValueError: Only known path allowed")).logged ∧
    (render_pdf "/ws" (.parts [⟨"html", "index.html"⟩]) .ok).response =
      some ⟨200, pathJoin "/ws" "output.pdf"⟩ :=
  engine_failure_opaque_500 "/ws" [⟨"html", "index.html"⟩]
    "ValueError: Only known path allowed" ⟨⟨"html", "index.html"⟩, by decide, rfl⟩

/-- For a fixed directory, `posixpath.join` is injective on second operands
that are not absolute. -/
theorem joinChars_inj (a b1 b2 : List Char)
    (h1 : b1.head? ≠ some '/') (h2 : b2.head? ≠ some '/')
    (h : joinChars a b1 = joinChars a b2) : b1 = b2 := by
  unfold joinChars at h
  rw [if_neg h1, if_neg h2] at h
  by_cases e : a = [] ∨ a.getLast? = some '/'
  · rw [if_pos e, if_pos e] at h
    exact List.append_cancel_left h
  · rw [if_neg e, if_neg e] at h
    have h3 := List.append_cancel_left h
    injection h3

/-- C9 counterexample: two parts with distinct field names `attachment.a`
and `attachment.b` but the same declared filename `f.png` are saved to the
same workspace path, so the ingested parts do not keep pairwise distinct
file paths (the second upload silently overwrites the first file). -/
theorem same_filename_same_path_counterexample :
    save_part_to_file "/ws" ⟨"attachment.a", "f.png"⟩ =
      save_part_to_file "/ws" ⟨"attachment.b", "f.png"⟩ ∧
    ("attachment.a" : String) ≠ "attachment.b" ∧
    ingest "/ws" [⟨"attachment.a", "f.png"⟩, ⟨"attachment.b", "f.png"⟩] =
      [("attachment.a", "/ws/f.png"), ("attachment.b", "/ws/f.png")] := by
  refine ⟨by decide, by decide, by decide⟩

/-- C9 (amended): ingested parts keep pairwise distinct file paths when their
declared filenames are pairwise distinct and relative (not starting with
`/`): two such parts are saved to distinct workspace paths. Two parts that
declare the same filename are saved to the same path, one overwriting the
other. -/
theorem distinct_filenames_distinct_paths (dir : String) (p q : Part)
    (hp : p.filename.data.head? ≠ some '/') (hq : q.filename.data.head? ≠ some '/')
    (hne : p.filename ≠ q.filename) :
    save_part_to_file dir p ≠ save_part_to_file dir q := by
  intro h
  unfold save_part_to_file pathJoin at h
  have h2 : joinChars dir.data p.filename.data = joinChars dir.data q.filename.data :=
    congrArg String.data h
  have h3 := joinChars_inj dir.data _ _ hp hq h2
  exact hne (String.ext h3)

/-- Witness for C9 (amended) at a concrete input: distinct relative
filenames under the same workspace give distinct saved paths. -/
theorem distinct_filenames_distinct_paths_witness :
    save_part_to_file "/ws" ⟨"attachment.a", "f.png"⟩ ≠
      save_part_to_file "/ws" ⟨"attachment.b", "g.png"⟩ :=
  distinct_filenames_distinct_paths "/ws" ⟨"attachment.a", "f.png"⟩
    ⟨"attachment.b", "g.png"⟩ (by decide) (by decide) (by decide)

/-- C10: the destination is `os.path.join(workspace, part.filename)` — the
declared filename, not the field name — but a filename carrying a `..`
component escapes the workspace: for the declared filename `../escape.bin`
the written file's normalized location is `/tmp/escape.bin`, which does not
lie inside the workspace `/tmp/ws`, refuting "still results in a file
located inside the workspace". -/
theorem filename_traversal_escapes_workspace :
    save_part_to_file "/tmp/ws" ⟨"attachment.evil", "../escape.bin"⟩ =
      "/tmp/ws/../escape.bin" ∧
    normpath "/tmp/ws/../escape.bin" = "/tmp/escape.bin" ∧
    strStartsWith "/tmp/ws/" "/tmp/escape.bin" = false ∧
    save_part_to_file "/tmp/ws" ⟨"attachment.evil", "/etc/evil.bin"⟩ = "/etc/evil.bin" := by
  refine ⟨by decide, by decide, by decide, by decide⟩

end WeasyServer
